import Mathlib

/-!
Shallow embedding of the snake-arena game core:
the per-tick game logic of the `useGameLogic` hook (grid constants,
`moveSnake`, `checkFoodCollision`, `growSnake`, `calculateSpeed`,
`generateRandomPosition`, and the state-machine operations `startGame`,
`pauseGame`, `setDirection`, `tick`), and the spectator simulation of
`mockApi` (`generateRandomFood`, `simulatePlayerTick`).

Conventions of the embedding:
* Coordinates are `Int` (JS numbers used only at integral values here);
  `%` on `Int` is Lean's `emod`, which agrees with JS `%` after the
  source's `(v + GRID_SIZE) % GRID_SIZE` normalisation trick on the
  ranges involved.
* The source's unbounded `do … while` rejection-sampling loops are
  embedded with an explicit stream of random draws (the successive
  values of `Math.floor(Math.random()*GRID_SIZE)` pairs); the loop
  returns `none` when it has consumed the whole stream without exiting,
  i.e. a run of the source loop that would still be iterating.
* `snake[0]` / `snake[snake.length-1]` on an empty array are undefined
  in the source; the embedding totalises them with `headI` / `getLastD`
  and every theorem about a snake assumes what the game maintains
  (non-empty snakes).
-/

namespace SnakeArena

/-- A grid cell, the source's `Position` record `{x, y}`. -/
structure Position where
  x : Int
  y : Int
deriving DecidableEq

instance : Inhabited Position := ⟨⟨0, 0⟩⟩

/-- The four movement directions. -/
inductive Direction
  | UP
  | DOWN
  | LEFT
  | RIGHT
deriving DecidableEq

/-- The two game modes: `'walls'` and `'pass-through'`. -/
inductive GameMode
  | walls
  | passThrough
deriving DecidableEq

/-- The session lifecycle statuses `'idle' | 'playing' | 'paused' | 'game-over'`. -/
inductive GameStatus
  | idle
  | playing
  | paused
  | gameOver
deriving DecidableEq

/-- `GRID_SIZE = 20`. -/
def GRID_SIZE : Int := 20

/-- `INITIAL_SPEED = 150`. -/
def INITIAL_SPEED : Int := 150

/-- `SPEED_INCREMENT = 5`. -/
def SPEED_INCREMENT : Int := 5

/-- `MIN_SPEED = 50`. -/
def MIN_SPEED : Int := 50

/-- The source's `getOppositeDirection` lookup table. -/
def getOppositeDirection : Direction → Direction
  | .UP => .DOWN
  | .DOWN => .UP
  | .LEFT => .RIGHT
  | .RIGHT => .LEFT

/-- The cell one step from `head` in `direction`: the `switch` at the
top of `moveSnake` (before any wrapping or bounds check). -/
def stepPos (head : Position) : Direction → Position
  | .UP => ⟨head.x, head.y - 1⟩
  | .DOWN => ⟨head.x, head.y + 1⟩
  | .LEFT => ⟨head.x - 1, head.y⟩
  | .RIGHT => ⟨head.x + 1, head.y⟩

/-- The source's element-wise position test `p.x === q.x && p.y === q.y`
as used in its `some(...)` callbacks. -/
def samePos (p q : Position) : Bool :=
  p.x == q.x && p.y == q.y

/-- The self-collision test of `moveSnake`: the body to check is
`snake.slice(2, -1)` (everything except the head, the segment right
after the head, and the tail), and a collision is any element of it
equal to the proposed head. -/
def selfHit (snake : List Position) (newHead : Position) : Bool :=
  ((snake.drop 2).dropLast).any fun segment => samePos segment newHead

/-- `moveSnake(snake, direction, mode)`: computes the proposed head,
applies pass-through wrapping or the walls bounds check, then the
self-collision check; returns the advanced snake
`[newHead, ...snake.slice(0, -1)]` or, on collision, the unchanged
snake with `collision: true`. -/
def moveSnake (snake : List Position) (direction : Direction) (mode : GameMode) :
    List Position × Bool :=
  let head := snake.headI
  let newHead0 := stepPos head direction
  match mode with
  | .passThrough =>
      let newHead : Position :=
        ⟨(newHead0.x + GRID_SIZE) % GRID_SIZE, (newHead0.y + GRID_SIZE) % GRID_SIZE⟩
      if selfHit snake newHead then (snake, true)
      else (newHead :: snake.dropLast, false)
  | .walls =>
      if newHead0.x < 0 || newHead0.x ≥ GRID_SIZE || newHead0.y < 0 || newHead0.y ≥ GRID_SIZE then
        (snake, true)
      else
        if selfHit snake newHead0 then (snake, true)
        else (newHead0 :: snake.dropLast, false)

/-- The collision reasons of the spec's `CollisionResult`. -/
inductive CollisionReason
  | WALL
  | SELF
deriving DecidableEq

/-- Which of `moveSnake`'s two early `return { ..., collision: true }`
statements fires: the source reports only a boolean, so the spec's
WALL/SELF reason is recovered from the branch structure (the walls
bounds check returns before the self check runs). -/
def moveReason (snake : List Position) (direction : Direction) (mode : GameMode) :
    Option CollisionReason :=
  let head := snake.headI
  let newHead0 := stepPos head direction
  match mode with
  | .passThrough =>
      let newHead : Position :=
        ⟨(newHead0.x + GRID_SIZE) % GRID_SIZE, (newHead0.y + GRID_SIZE) % GRID_SIZE⟩
      if selfHit snake newHead then some .SELF else none
  | .walls =>
      if newHead0.x < 0 || newHead0.x ≥ GRID_SIZE || newHead0.y < 0 || newHead0.y ≥ GRID_SIZE then
        some .WALL
      else if selfHit snake newHead0 then some .SELF else none

/-- The proposed head after mode handling: wrapped modulo `GRID_SIZE`
in pass-through mode, the raw stepped cell in walls mode. -/
def wrappedHead (snake : List Position) (direction : Direction) (mode : GameMode) : Position :=
  let newHead0 := stepPos snake.headI direction
  match mode with
  | .passThrough =>
      ⟨(newHead0.x + GRID_SIZE) % GRID_SIZE, (newHead0.y + GRID_SIZE) % GRID_SIZE⟩
  | .walls => newHead0

/-- `checkFoodCollision(head, food)`. -/
def checkFoodCollision (head food : Position) : Bool :=
  head.x == food.x && head.y == food.y

/-- `growSnake(snake)`: appends a copy of the tail cell. -/
def growSnake (snake : List Position) : List Position :=
  snake ++ [snake.getLastD default]

/-- `calculateSpeed(score)`: `max(MIN_SPEED, INITIAL_SPEED - floor(score/50) * SPEED_INCREMENT)`. -/
def calculateSpeed (score : Nat) : Int :=
  let speedReduction : Int := ((score / 50 : Nat) : Int) * SPEED_INCREMENT
  max MIN_SPEED (INITIAL_SPEED - speedReduction)

/-- `generateRandomPosition(excludePositions)`: the `do`-`while`
rejection-sampling loop, embedded over the stream `draws` of successive
random cells; each iteration takes the next draw and exits as soon as a
draw avoids `excludePositions`. The source has no retry bound and no
fallback, so `none` (stream exhausted) models a loop still running. -/
def generateRandomPosition : List Position → List Position → Option Position
  | [], _ => none
  | d :: rest, excludePositions =>
      if excludePositions.any fun p => samePos p d then
        generateRandomPosition rest excludePositions
      else
        some d

/-- The game-session state: the source's `GameState` record. -/
structure GameState where
  snake : List Position
  food : Position
  direction : Direction
  nextDirection : Direction
  score : Nat
  highScore : Nat
  status : GameStatus
  mode : GameMode
  speed : Int
deriving DecidableEq

/-- `startGame()`: sets status to playing (from any status). -/
def startGame (prev : GameState) : GameState :=
  { prev with status := .playing }

/-- `pauseGame()`: `status: prev.status === 'playing' ? 'paused' : 'playing'`. -/
def pauseGame (prev : GameState) : GameState :=
  { prev with status := if prev.status = .playing then .paused else .playing }

/-- `setDirection(newDirection)`: ignored unless playing; ignored when
`newDirection` is the opposite of the committed current direction;
otherwise records it as `nextDirection`. -/
def setDirection (prev : GameState) (newDirection : Direction) : GameState :=
  if prev.status ≠ .playing then prev
  else if newDirection = getOppositeDirection prev.direction then prev
  else { prev with nextDirection := newDirection }

/-- One `tick()`. Returns the next state together with the value (if
any) written to the high-score store (`localStorage.setItem`); `draws`
feeds `generateRandomPosition` when food is eaten, and `none` overall
models the food-respawn loop failing to exit within the stream. -/
def tick (draws : List Position) (prev : GameState) : Option (GameState × Option Nat) :=
  if prev.status ≠ .playing then some (prev, none)
  else
    let direction := prev.nextDirection
    let moved := moveSnake prev.snake direction prev.mode
    if moved.2 then
      some ({ prev with
                status := .gameOver,
                highScore := max prev.score prev.highScore },
            if prev.score > prev.highScore then some prev.score else none)
    else
      let newSnake := moved.1
      let head := newSnake.headI
      if checkFoodCollision head prev.food then
        let grownSnake := growSnake newSnake
        let newScore := prev.score + 10
        let newHighScore := max newScore prev.highScore
        match generateRandomPosition draws grownSnake with
        | none => none
        | some f =>
            some ({ prev with
                      snake := grownSnake,
                      food := f,
                      direction := direction,
                      score := newScore,
                      highScore := newHighScore,
                      speed := calculateSpeed newScore },
                  if newScore > prev.highScore then some newHighScore else none)
      else
        some ({ prev with snake := newSnake, direction := direction }, none)

/-- A cell lies on the `GRID_SIZE × GRID_SIZE` grid. -/
def inGrid (p : Position) : Prop :=
  0 ≤ p.x ∧ p.x < GRID_SIZE ∧ 0 ≤ p.y ∧ p.y < GRID_SIZE

instance (p : Position) : Decidable (inGrid p) :=
  inferInstanceAs (Decidable (0 ≤ p.x ∧ p.x < GRID_SIZE ∧ 0 ≤ p.y ∧ p.y < GRID_SIZE))

/-- Every cell of the `GRID_SIZE × GRID_SIZE` grid, listed once. -/
def allCells : List Position :=
  (List.range 20).flatMap fun (a : Nat) =>
    (List.range 20).map fun (b : Nat) => { x := (a : Int), y := (b : Int) }

/-- A spectated player's snapshot: the `LivePlayer` record (the fields
`simulatePlayerTick` reads or copies through). -/
structure LivePlayer where
  id : String
  username : String
  score : Nat
  mode : GameMode
  snake : List Position
  food : Position
  direction : Direction
  status : GameStatus
  viewers : Nat
deriving DecidableEq

/-- `generateRandomFood(gridSize, snake)` of `mockApi`: the same
`do`-`while` rejection-sampling loop as `generateRandomPosition`,
excluding the cells of `snake`, embedded over a stream of draws. -/
def generateRandomFood : List Position → List Position → Option Position
  | [], _ => none
  | d :: rest, snake =>
      if snake.any fun segment => samePos segment d then
        generateRandomFood rest snake
      else
        some d

/-- The module-level `directions` array of `mockApi`. -/
def directions : List Direction := [.UP, .DOWN, .LEFT, .RIGHT]

/-- The direction filter inside `simulatePlayerTick`'s random-turn
branch: keeps every direction that is not the 180° reversal of the
current one (the four explicit `if` pairs of the source). -/
def legalTurn (direction d : Direction) : Bool :=
  if direction = .UP ∧ d = .DOWN then false
  else if direction = .DOWN ∧ d = .UP then false
  else if direction = .LEFT ∧ d = .RIGHT then false
  else if direction = .RIGHT ∧ d = .LEFT then false
  else true

/-- The head cell computed at the top of `simulatePlayerTick`: one cell in
the player's current direction (the source's `switch`), with the toroidal
wrap applied unconditionally on the moving axis. -/
def simHead (player : LivePlayer) (gridSize : Int) : Position :=
  let head := player.snake.headI
  match player.direction with
  | .UP => ⟨head.x, (head.y - 1 + gridSize) % gridSize⟩
  | .DOWN => ⟨head.x, (head.y + 1) % gridSize⟩
  | .LEFT => ⟨(head.x - 1 + gridSize) % gridSize, head.y⟩
  | .RIGHT => ⟨(head.x + 1) % gridSize, head.y⟩

/-- `simulatePlayerTick(player, gridSize)`. Randomness is made
explicit: `foodDraws` feeds `generateRandomFood` on the eat path
(`none` overall models its loop failing to exit within the stream),
`changeDir` is the source's `Math.random() < 0.3` coin, and `k`
abstracts `Math.floor(Math.random() * possibleDirections.length)`
(reduced modulo the length, which is how the source keeps it in
range). The new-head `switch` is the separate definition `simHead`. -/
def simulatePlayerTick (player : LivePlayer) (gridSize : Int)
    (foodDraws : List Position) (changeDir : Bool) (k : Nat) : Option LivePlayer :=
  let newHead := simHead player gridSize
  let newSnake0 := newHead :: player.snake
  let newDirection :=
    if changeDir then
      let possibleDirections := directions.filter (legalTurn player.direction)
      possibleDirections.getD (k % possibleDirections.length) player.direction
    else player.direction
  if checkFoodCollision newHead player.food then
    match generateRandomFood foodDraws newSnake0 with
    | none => none
    | some newFood =>
        some { player with
                 snake := newSnake0,
                 food := newFood,
                 direction := newDirection,
                 score := player.score + 10 }
  else
    some { player with
             snake := newSnake0.dropLast,
             food := player.food,
             direction := newDirection,
             score := player.score }

/-- Two cells are orthogonally adjacent (used to state that a concrete
snake is a closed loop). -/
def adjacentPos (p q : Position) : Prop :=
  (p.x - q.x).natAbs + (p.y - q.y).natAbs = 1

instance (p q : Position) : Decidable (adjacentPos p q) :=
  inferInstanceAs (Decidable ((p.x - q.x).natAbs + (p.y - q.y).natAbs = 1))

/-- A length-4 snake forming the 2×2 closed loop
`(0,0) (0,1) (1,1) (1,0)`, head at `(0,0)`. -/
def loop4 : List Position := [⟨0, 0⟩, ⟨0, 1⟩, ⟨1, 1⟩, ⟨1, 0⟩]

/-- An S-shaped snake whose head at `(5,5)` is orthogonally next to its
own fourth cell `(6,5)`: moving RIGHT proposes a genuine self collision. -/
def snakeS : List Position := [⟨5, 5⟩, ⟨5, 6⟩, ⟨6, 6⟩, ⟨6, 5⟩, ⟨7, 5⟩]

/-- A finished session (status game-over). -/
def sessionGameOver : GameState :=
  { snake := [⟨10, 10⟩, ⟨9, 10⟩, ⟨8, 10⟩], food := ⟨0, 0⟩, direction := .RIGHT,
    nextDirection := .RIGHT, score := 30, highScore := 50, status := .gameOver,
    mode := .walls, speed := 150 }

/-- The spec's collision scenario: snake `[(19,10),(18,10)]`, walls mode,
heading RIGHT into the east wall. -/
def sessionWallHit : GameState :=
  { snake := [⟨19, 10⟩, ⟨18, 10⟩], food := ⟨0, 0⟩, direction := .RIGHT,
    nextDirection := .RIGHT, score := 30, highScore := 20, status := .playing,
    mode := .walls, speed := 150 }

/-- The spec's food scenario: fresh walls session with food placed at
`(11,10)`, one cell ahead of the head. -/
def sessionEat : GameState :=
  { snake := [⟨10, 10⟩, ⟨9, 10⟩, ⟨8, 10⟩], food := ⟨11, 10⟩, direction := .RIGHT,
    nextDirection := .RIGHT, score := 0, highScore := 0, status := .playing,
    mode := .walls, speed := 150 }

/-- The state `tick` produces from `sessionEat` when the food respawn
draws `(0,0)` first. -/
def sessionEatAfter : GameState :=
  { snake := [⟨11, 10⟩, ⟨10, 10⟩, ⟨9, 10⟩, ⟨9, 10⟩], food := ⟨0, 0⟩, direction := .RIGHT,
    nextDirection := .RIGHT, score := 10, highScore := 10, status := .playing,
    mode := .walls, speed := 150 }

/-- A playing session whose committed direction (UP) is decoupled from the
snake's geometry (an eastward-pointing body): the second body segment
`(4,5)` lies exactly opposite the head's last request LEFT. -/
def sessionBlind : GameState :=
  { snake := [⟨5, 5⟩, ⟨4, 5⟩, ⟨3, 5⟩], food := ⟨0, 0⟩, direction := .UP,
    nextDirection := .UP, score := 0, highScore := 0, status := .playing,
    mode := .walls, speed := 150 }

/-- The state `tick` produces from `sessionBlind` after the requests
RIGHT then LEFT: the head has moved onto `(4,5)`, the old second segment. -/
def sessionBlindAfter : GameState :=
  { snake := [⟨4, 5⟩, ⟨5, 5⟩, ⟨4, 5⟩], food := ⟨0, 0⟩, direction := .LEFT,
    nextDirection := .LEFT, score := 0, highScore := 0, status := .playing,
    mode := .walls, speed := 150 }

/-- A spectated snapshot about to eat the food one cell to its right. -/
def playerDemo : LivePlayer :=
  { id := "live1", username := "StreamerPro", score := 0, mode := .passThrough,
    snake := [⟨5, 5⟩, ⟨4, 5⟩], food := ⟨6, 5⟩, direction := .RIGHT,
    status := .playing, viewers := 3 }

/-- The snapshot `simulatePlayerTick` produces from `playerDemo` when the
food respawn draws `(0,0)` first, the turn coin comes up true and the
random index is 0 (selecting UP from the legal turns of RIGHT). -/
def playerDemoAfter : LivePlayer :=
  { id := "live1", username := "StreamerPro", score := 10, mode := .passThrough,
    snake := [⟨6, 5⟩, ⟨5, 5⟩, ⟨4, 5⟩], food := ⟨0, 0⟩, direction := .UP,
    status := .playing, viewers := 3 }

/-! ## Helper lemmas -/

theorem samePos_iff (p q : Position) : samePos p q = true ↔ p = q := by
  cases p; cases q
  simp [samePos, Position.mk.injEq]

theorem checkFoodCollision_iff (h f : Position) :
    checkFoodCollision h f = true ↔ h = f := by
  cases h; cases f
  simp [checkFoodCollision, Position.mk.injEq]

theorem getD_zero_eq_headI (l : List Position) (hl : l ≠ []) :
    l.getD 0 default = l.headI := by
  cases l with
  | nil => exact absurd rfl hl
  | cons a t => rfl

theorem generateRandomPosition_some (draws ex : List Position) (p : Position)
    (h : generateRandomPosition draws ex = some p) : p ∈ draws ∧ p ∉ ex := by
  induction draws with
  | nil => simp [generateRandomPosition] at h
  | cons d rest ih =>
      rw [generateRandomPosition] at h
      by_cases hd : (ex.any fun q => samePos q d) = true
      · rw [if_pos hd] at h
        obtain ⟨h1, h2⟩ := ih h
        exact ⟨List.mem_cons_of_mem _ h1, h2⟩
      · rw [if_neg hd] at h
        obtain rfl : d = p := by simpa using h
        refine ⟨List.mem_cons_self _ _, fun hmem => hd ?_⟩
        rw [List.any_eq_true]
        exact ⟨d, hmem, (samePos_iff d d).mpr rfl⟩

theorem generateRandomPosition_none_iff (draws ex : List Position) :
    generateRandomPosition draws ex = none ↔ ∀ d ∈ draws, d ∈ ex := by
  induction draws with
  | nil => simp [generateRandomPosition]
  | cons d rest ih =>
      rw [generateRandomPosition]
      by_cases hd : (ex.any fun q => samePos q d) = true
      · rw [if_pos hd, ih]
        have hdm : d ∈ ex := by
          rw [List.any_eq_true] at hd
          obtain ⟨q, hq, hqd⟩ := hd
          rw [samePos_iff] at hqd
          exact hqd ▸ hq
        simp [hdm]
      · rw [if_neg hd]
        have hdm : d ∉ ex := fun hmem => hd (by
          rw [List.any_eq_true]
          exact ⟨d, hmem, (samePos_iff d d).mpr rfl⟩)
        simp [hdm]

theorem generateRandomFood_some (draws snake : List Position) (p : Position)
    (h : generateRandomFood draws snake = some p) : p ∈ draws ∧ p ∉ snake := by
  induction draws with
  | nil => simp [generateRandomFood] at h
  | cons d rest ih =>
      rw [generateRandomFood] at h
      by_cases hd : (snake.any fun q => samePos q d) = true
      · rw [if_pos hd] at h
        obtain ⟨h1, h2⟩ := ih h
        exact ⟨List.mem_cons_of_mem _ h1, h2⟩
      · rw [if_neg hd] at h
        obtain rfl : d = p := by simpa using h
        refine ⟨List.mem_cons_self _ _, fun hmem => hd ?_⟩
        rw [List.any_eq_true]
        exact ⟨d, hmem, (samePos_iff d d).mpr rfl⟩

theorem mem_allCells (p : Position) : p ∈ allCells ↔ inGrid p := by
  obtain ⟨x, y⟩ := p
  unfold allCells inGrid GRID_SIZE
  dsimp only
  constructor
  · intro hmem
    rw [List.mem_flatMap] at hmem
    obtain ⟨a, ha, hmem⟩ := hmem
    rw [List.mem_map] at hmem
    obtain ⟨b, hb, heq⟩ := hmem
    rw [List.mem_range] at ha hb
    cases heq
    refine ⟨?_, ?_, ?_, ?_⟩ <;> dsimp only <;> omega
  · rintro ⟨hx0, hx1, hy0, hy1⟩
    rw [List.mem_flatMap]
    refine ⟨x.toNat, ?_, ?_⟩
    · rw [List.mem_range]; omega
    · rw [List.mem_map]
      refine ⟨y.toNat, by rw [List.mem_range]; omega, ?_⟩
      have hx : ((x.toNat : Int)) = x := Int.toNat_of_nonneg hx0
      have hy : ((y.toNat : Int)) = y := Int.toNat_of_nonneg hy0
      rw [hx, hy]

theorem mem_drop_dropLast_iff (l : List Position) (x : Position) :
    x ∈ (l.drop 2).dropLast ↔ ∃ j, 2 ≤ j ∧ j + 1 < l.length ∧ l.getD j default = x := by
  constructor
  · intro hx
    obtain ⟨i, hi, hgi⟩ := List.mem_iff_getElem.mp hx
    have h1 := List.length_dropLast (l.drop 2)
    have h2 := List.length_drop 2 l
    refine ⟨2 + i, by omega, by omega, ?_⟩
    rw [List.getElem_dropLast, List.getElem_drop] at hgi
    rw [List.getD_eq_getElem _ _ (by omega : 2 + i < l.length)]
    exact hgi
  · rintro ⟨j, h2j, hj1, hgj⟩
    rw [List.mem_iff_getElem]
    have h1 := List.length_dropLast (l.drop 2)
    have h2 := List.length_drop 2 l
    refine ⟨j - 2, by omega, ?_⟩
    rw [List.getElem_dropLast, List.getElem_drop]
    rw [List.getD_eq_getElem _ _ (by omega : j < l.length)] at hgj
    have hidx : 2 + (j - 2) = j := by omega
    simp only [hidx]
    exact hgj

theorem selfHit_iff_exists (snake : List Position) (nh : Position) :
    selfHit snake nh = true ↔
      ∃ j, 2 ≤ j ∧ j + 1 < snake.length ∧ snake.getD j default = nh := by
  unfold selfHit
  rw [List.any_eq_true]
  constructor
  · rintro ⟨seg, hseg, hp⟩
    rw [samePos_iff] at hp
    subst hp
    exact (mem_drop_dropLast_iff snake seg).mp hseg
  · rintro ⟨j, hj1, hj2, hj3⟩
    exact ⟨nh, (mem_drop_dropLast_iff snake nh).mpr ⟨j, hj1, hj2, hj3⟩,
      (samePos_iff nh nh).mpr rfl⟩

theorem wrappedHead_ne_head (snake : List Position) (dir : Direction) (mode : GameMode)
    (hh : inGrid snake.headI) : wrappedHead snake dir mode ≠ snake.headI := by
  obtain ⟨hx0, hx1, hy0, hy1⟩ := hh
  intro heq
  have hx := congrArg Position.x heq
  have hy := congrArg Position.y heq
  cases mode <;> cases dir <;>
    (simp only [wrappedHead, stepPos, GRID_SIZE] at hx hy; omega)

theorem moveSnake_collision_eq_isSome (snake : List Position) (dir : Direction)
    (mode : GameMode) :
    (moveSnake snake dir mode).2 = (moveReason snake dir mode).isSome := by
  cases mode <;> simp only [moveSnake, moveReason]
  · split
    · rfl
    · split <;> rfl
  · split <;> rfl

theorem moveSnake_result (snake : List Position) (dir : Direction) (mode : GameMode)
    (hw : mode = .walls → inGrid (stepPos snake.headI dir))
    (hs : selfHit snake (wrappedHead snake dir mode) = false) :
    moveSnake snake dir mode = (wrappedHead snake dir mode :: snake.dropLast, false) := by
  cases mode
  · obtain ⟨hx0, hx1, hy0, hy1⟩ := hw rfl
    simp only [moveSnake, wrappedHead] at hs ⊢
    rw [if_neg (by simp only [Bool.or_eq_true, decide_eq_true_eq]; omega)]
    rw [if_neg (by rw [hs]; exact fun h => nomatch h)]
  · simp only [moveSnake, wrappedHead] at hs ⊢
    rw [if_neg (by rw [hs]; exact fun h => nomatch h)]

theorem moveSnake_eq_of_ok (snake : List Position) (dir : Direction) (mode : GameMode)
    (hc : (moveSnake snake dir mode).2 = false) :
    moveSnake snake dir mode = (wrappedHead snake dir mode :: snake.dropLast, false) := by
  cases mode <;> simp only [moveSnake, wrappedHead] at hc ⊢
  · split at hc
    · exact absurd hc (by simp)
    · rename_i hoob
      split at hc
      · exact absurd hc (by simp)
      · rename_i hself
        rw [if_neg hoob, if_neg hself]
  · split at hc
    · exact absurd hc (by simp)
    · rename_i hself
      rw [if_neg hself]

theorem headI_mem_of_ne_nil (l : List Position) (h : l ≠ []) : l.headI ∈ l := by
  cases l with
  | nil => exact absurd rfl h
  | cons a t => exact List.mem_cons_self a t

theorem ite_some_self_iff (b : Bool) :
    (if b = true then some CollisionReason.SELF else none) = some CollisionReason.SELF ↔
      b = true := by
  cases b <;> simp

theorem selfHit_bridge (snake : List Position) (wh : Position)
    (hsn : snake ≠ []) (hne : wh ≠ snake.headI) :
    selfHit snake wh = true ↔
      ∃ j, j < snake.length ∧ j ≠ 1 ∧ j ≠ snake.length - 1 ∧
        snake.getD j default = wh := by
  rw [selfHit_iff_exists]
  constructor
  · rintro ⟨j, hj2, hj1, hjeq⟩
    exact ⟨j, by omega, by omega, by omega, hjeq⟩
  · rintro ⟨j, hj, hj1, hjl, hjeq⟩
    have hlen0 : 0 < snake.length := List.length_pos.mpr hsn
    have hj0 : j ≠ 0 := by
      intro h0
      subst h0
      rw [getD_zero_eq_headI snake hsn] at hjeq
      exact hne hjeq.symm
    exact ⟨j, by omega, by omega, hjeq⟩

/-! ## Claim theorems -/

/-- C1 (amended): `pauseGame` sets the status to PAUSED when it is PLAYING
and to PLAYING from every other status — it is not a no-op in IDLE or
GAME_OVER; `startGame` sets PLAYING unconditionally. Consequently GAME_OVER
is left unchanged by `setDirection` and `tick`, but not by `pauseGame` or
`startGame`, which both move a game-over session back to PLAYING. -/
theorem C1_pause_status_characterisation (s : GameState) :
    pauseGame s = { s with status := if s.status = .playing then .paused else .playing } ∧
    startGame s = { s with status := .playing } ∧
    (s.status = .gameOver →
      (∀ d : Direction, setDirection s d = s) ∧
      (∀ draws : List Position, tick draws s = some (s, none)) ∧
      (pauseGame s).status = .playing ∧
      (startGame s).status = .playing) := by
  refine ⟨rfl, rfl, fun hgo => ⟨?_, ?_, ?_, ?_⟩⟩
  · intro d
    unfold setDirection
    rw [if_pos (by rw [hgo]; exact fun h => nomatch h)]
  · intro draws
    unfold tick
    rw [if_pos (by rw [hgo]; exact fun h => nomatch h)]
  · simp [pauseGame, hgo]
  · simp [startGame]

/-- C1 counterexample: on a session in status GAME_OVER, `pause()` is not a
no-op: it sets the status to PLAYING, so GAME_OVER is not terminal under
`pause()` as the claim states. -/
theorem C1_counterexample_pause_gameOver :
    sessionGameOver.status = .gameOver ∧
    (pauseGame sessionGameOver).status = .playing ∧
    (pauseGame sessionGameOver).status ≠ .gameOver := by decide

/-- C1 witness: the amended characterisation applied to a concrete
game-over session. -/
theorem C1_witness_gameOver_ops :
    setDirection sessionGameOver .UP = sessionGameOver ∧
    tick [] sessionGameOver = some (sessionGameOver, none) ∧
    (pauseGame sessionGameOver).status = .playing := by
  have h := (C1_pause_status_characterisation sessionGameOver).2.2 rfl
  exact ⟨h.1 .UP, h.2.1 [], h.2.2.1⟩

/-- C7: `calculateSpeed score` equals `max(50, 150 − ⌊score/50⌋·5)`; it is
monotonically non-increasing in the score and never below 50 (hence never
non-positive), with the values 150, 145 and 50 at scores 0, 50 and
100000. -/
theorem C7_calculateSpeed_spec :
    (∀ score : Nat, calculateSpeed score =
        max 50 (150 - ((score / 50 : Nat) : Int) * 5)) ∧
    (∀ s t : Nat, s ≤ t → calculateSpeed t ≤ calculateSpeed s) ∧
    (∀ score : Nat, 50 ≤ calculateSpeed score) ∧
    calculateSpeed 0 = 150 ∧ calculateSpeed 50 = 145 ∧ calculateSpeed 100000 = 50 := by
  refine ⟨fun score => rfl, ?_, ?_, by decide, by decide, by decide⟩
  · intro s t hst
    simp only [calculateSpeed, MIN_SPEED, INITIAL_SPEED, SPEED_INCREMENT]
    have hd : (s / 50 : Nat) ≤ t / 50 := Nat.div_le_div_right hst
    have hdi : ((s / 50 : Nat) : Int) ≤ ((t / 50 : Nat) : Int) := by exact_mod_cast hd
    exact max_le_max le_rfl (by linarith)
  · intro score
    simp only [calculateSpeed, MIN_SPEED]
    exact le_max_left _ _

/-- C7 witness: monotonicity and the lower bound at concrete scores. -/
theorem C7_witness :
    calculateSpeed 120 ≤ calculateSpeed 40 ∧ 50 ≤ calculateSpeed 9999 :=
  ⟨C7_calculateSpeed_spec.2.1 40 120 (by decide), C7_calculateSpeed_spec.2.2.1 9999⟩

/-- C3 counterexample: `loop4` is a closed loop of length 4 with distinct
cells; moving DOWN proposes exactly the snake's own second segment `(0,1)`,
yet `moveSnake` reports no collision (ok = true), where the claim demands
`ok = false, reason = SELF`. -/
theorem C3_counterexample_secondSegment_ok :
    loop4.length = 4 ∧ loop4.Nodup ∧
    List.Chain' adjacentPos loop4 ∧ adjacentPos (loop4.getLastD default) loop4.headI ∧
    stepPos loop4.headI .DOWN = loop4.getD 1 default ∧
    (moveSnake loop4 .DOWN .walls).2 = false := by
  refine ⟨by decide, by decide, ?_, by decide, by decide, by decide⟩
  simp only [loop4, List.chain'_cons, List.chain'_singleton, and_true]
  refine ⟨by decide, by decide, by decide⟩

/-- C3 (amended): for every snake of length ≥ 4 with pairwise-distinct cells
on the grid (any closed loop qualifies), a move whose proposed head lands on
the snake's own second segment yields ok = true, no collision: the segment
immediately behind the head is excluded from the self-collision check. -/
theorem C3_move_into_second_segment_ok (snake : List Position) (dir : Direction)
    (mode : GameMode) (hg : ∀ c ∈ snake, inGrid c) (hnd : snake.Nodup)
    (hlen : 4 ≤ snake.length)
    (hsec : wrappedHead snake dir mode = snake.getD 1 default) :
    moveSnake snake dir mode = (snake.getD 1 default :: snake.dropLast, false) := by
  have hmem1 : snake.getD 1 default ∈ snake := by
    rw [List.getD_eq_getElem _ _ (by omega : 1 < snake.length)]
    exact List.getElem_mem _
  have hs : selfHit snake (wrappedHead snake dir mode) = false := by
    cases hhit : selfHit snake (wrappedHead snake dir mode) with
    | false => rfl
    | true =>
        exfalso
        rw [selfHit_iff_exists] at hhit
        obtain ⟨j, hj2, hj1, hjeq⟩ := hhit
        rw [hsec] at hjeq
        rw [List.getD_eq_getElem _ _ (by omega : j < snake.length),
            List.getD_eq_getElem _ _ (by omega : 1 < snake.length)] at hjeq
        have := (hnd.getElem_inj_iff).mp hjeq
        omega
  have hw : mode = .walls → inGrid (stepPos snake.headI dir) := by
    intro hm
    subst hm
    have hwr : wrappedHead snake dir .walls = stepPos snake.headI dir := rfl
    rw [← hwr, hsec]
    exact hg _ hmem1
  have hres := moveSnake_result snake dir mode hw hs
  rw [hsec] at hres
  exact hres

/-- C3 witness: the amended statement applied to the concrete loop. -/
theorem C3_witness_loop4 :
    moveSnake loop4 .DOWN .walls = (loop4.getD 1 default :: loop4.dropLast, false) :=
  C3_move_into_second_segment_ok loop4 .DOWN .walls (by decide) (by decide)
    (by decide) (by decide)

/-- C2: for a snake of in-grid cells, the self-collision check of
`moveSnake` reports SELF exactly when the (possibly wrapped) proposed head
matches a body segment other than the segment immediately behind the head
(index 1) and the current tail segment (the last index) — the head itself
(index 0) can never match a single-step proposed head; moreover a proposed
head equal to the cell the tail currently occupies yields ok = true for a
duplicate-free snake. `moveSnake` takes no growth information, so this
exclusion applies whether or not the snake grows that tick. -/
theorem C2_selfCheck_exclusions (snake : List Position) (dir : Direction)
    (mode : GameMode) (hg : ∀ c ∈ snake, inGrid c) :
    (moveReason snake dir mode = some .SELF ↔
      ∃ j, j < snake.length ∧ j ≠ 1 ∧ j ≠ snake.length - 1 ∧
        snake.getD j default = wrappedHead snake dir mode) ∧
    (snake.Nodup → 2 ≤ snake.length →
      wrappedHead snake dir mode = snake.getD (snake.length - 1) default →
      moveSnake snake dir mode =
        (wrappedHead snake dir mode :: snake.dropLast, false)) := by
  constructor
  · by_cases hsn : snake = []
    · subst hsn
      constructor
      · intro h
        exfalso
        cases mode <;> simp only [moveReason] at h
        · split at h
          · exact nomatch h
          · rw [if_neg (by simp [selfHit])] at h
            exact nomatch h
        · rw [if_neg (by simp [selfHit])] at h
          exact nomatch h
      · rintro ⟨j, hj, _⟩
        simp at hj
    · have hhead : inGrid snake.headI := hg _ (headI_mem_of_ne_nil snake hsn)
      have hne := wrappedHead_ne_head snake dir mode hhead
      cases mode
      · simp only [moveReason]
        split
        · rename_i hoob
          constructor
          · intro h
            exact nomatch h
          · rintro ⟨j, hj, hj1, hjl, hjeq⟩
            exfalso
            have hmem : snake.getD j default ∈ snake := by
              rw [List.getD_eq_getElem _ _ hj]
              exact List.getElem_mem _
            have hginj := hg _ hmem
            rw [hjeq] at hginj
            have hws : wrappedHead snake dir .walls = stepPos snake.headI dir := rfl
            rw [hws] at hginj
            obtain ⟨a0, a1, b0, b1⟩ := hginj
            simp only [Bool.or_eq_true, decide_eq_true_eq, GRID_SIZE] at hoob a1 b1
            omega
        · rw [ite_some_self_iff]
          have hws : wrappedHead snake dir .walls = stepPos snake.headI dir := rfl
          rw [← hws]
          exact selfHit_bridge _ _ hsn hne
      · simp only [moveReason]
        rw [ite_some_self_iff]
        have hwp : wrappedHead snake dir .passThrough =
            ⟨((stepPos snake.headI dir).x + GRID_SIZE) % GRID_SIZE,
             ((stepPos snake.headI dir).y + GRID_SIZE) % GRID_SIZE⟩ := rfl
        rw [← hwp]
        exact selfHit_bridge _ _ hsn hne
  · intro hnd hlen htail
    have hmem : snake.getD (snake.length - 1) default ∈ snake := by
      rw [List.getD_eq_getElem _ _ (by omega : snake.length - 1 < snake.length)]
      exact List.getElem_mem _
    have hs : selfHit snake (wrappedHead snake dir mode) = false := by
      cases hhit : selfHit snake (wrappedHead snake dir mode) with
      | false => rfl
      | true =>
          exfalso
          rw [selfHit_iff_exists] at hhit
          obtain ⟨j, hj2, hj1, hjeq⟩ := hhit
          rw [htail] at hjeq
          rw [List.getD_eq_getElem _ _ (by omega : j < snake.length),
              List.getD_eq_getElem _ _
                (by omega : snake.length - 1 < snake.length)] at hjeq
          have := (hnd.getElem_inj_iff).mp hjeq
          omega
    have hw : mode = .walls → inGrid (stepPos snake.headI dir) := by
      intro hm
      subst hm
      have hws : wrappedHead snake dir .walls = stepPos snake.headI dir := rfl
      rw [← hws, htail]
      exact hg _ hmem
    exact moveSnake_result snake dir mode hw hs

/-- C2 witness: a genuine SELF report on an S-shaped snake whose proposed
head matches its fourth cell, and a tail-cell move on the closed loop that
passes the check. -/
theorem C2_witness :
    moveReason snakeS .RIGHT .walls = some .SELF ∧
    moveSnake loop4 .RIGHT .walls =
      (wrappedHead loop4 .RIGHT .walls :: loop4.dropLast, false) := by
  constructor
  · exact (C2_selfCheck_exclusions snakeS .RIGHT .walls (by decide)).1.mpr
      ⟨3, by decide, by decide, by decide, by decide⟩
  · exact (C2_selfCheck_exclusions loop4 .RIGHT .walls (by decide)).2
      (by decide) (by decide) (by decide)

/-- C4: when a PLAYING session's next move collides (wall or self), tick()
sets the status to GAME_OVER and leaves the snake, food, score, current
direction, pending direction, mode and speed unchanged (no partial move);
the high score becomes max(score, previous high score) and a value is
written to the external store if and only if score > previous high score. -/
theorem C4_tick_collision_frame (prev : GameState) (draws : List Position)
    (hp : prev.status = .playing)
    (hc : (moveSnake prev.snake prev.nextDirection prev.mode).2 = true) :
    tick draws prev =
      some ({ prev with status := .gameOver
                        highScore := max prev.score prev.highScore },
            if prev.score > prev.highScore then some prev.score else none) ∧
    ∀ s1 w, tick draws prev = some (s1, w) →
      s1.status = .gameOver ∧ s1.snake = prev.snake ∧ s1.food = prev.food ∧
      s1.score = prev.score ∧ s1.direction = prev.direction ∧
      s1.nextDirection = prev.nextDirection ∧ s1.mode = prev.mode ∧
      s1.speed = prev.speed ∧ s1.highScore = max prev.score prev.highScore ∧
      (w ≠ none ↔ prev.score > prev.highScore) := by
  have hnp : ¬(prev.status ≠ GameStatus.playing) := by
    rw [hp]; exact fun h => h rfl
  have heq : tick draws prev =
      some ({ prev with status := .gameOver
                        highScore := max prev.score prev.highScore },
            if prev.score > prev.highScore then some prev.score else none) := by
    unfold tick
    rw [if_neg hnp]
    simp only [hc, if_true]
  refine ⟨heq, fun s1 w hw => ?_⟩
  rw [heq] at hw
  have hpair := Option.some.inj hw
  have hs1 : s1 = { prev with status := .gameOver
                              highScore := max prev.score prev.highScore } :=
    (congrArg Prod.fst hpair).symm
  have hww : w = if prev.score > prev.highScore then some prev.score else none :=
    (congrArg Prod.snd hpair).symm
  subst hs1
  subst hww
  refine ⟨rfl, rfl, rfl, rfl, rfl, rfl, rfl, rfl, rfl, ?_⟩
  by_cases hgt : prev.score > prev.highScore
  · simp [hgt]
  · simp [hgt]

/-- C4 witness: the spec's wall-hit scenario — snake `[(19,10),(18,10)]`,
walls mode, heading RIGHT: the session transitions to game-over, the snake
is unchanged, and the score 30 is written because it beats high score 20. -/
theorem C4_witness :
    tick [] sessionWallHit =
      some ({ sessionWallHit with status := .gameOver, highScore := 30 }, some 30) ∧
    ({ sessionWallHit with status := .gameOver, highScore := 30 } : GameState).snake =
      sessionWallHit.snake := by
  have h := C4_tick_collision_frame sessionWallHit [] rfl (by decide)
  refine ⟨?_, rfl⟩
  rw [h.1]
  decide

/-- C5: when a PLAYING session's next move does not collide, tick() moves
the head one cell in the pending direction (with the mode's wrapping) and
commits the pending direction as the current direction; if the new head
equals the food cell, the snake length grows by exactly 1, the score by
exactly 10, the speed is recomputed from the new score, and the respawned
food is not a member of the new snake; otherwise snake length, score, food
and speed are unchanged. -/
theorem C5_tick_success_frame (prev : GameState) (draws : List Position)
    (s1 : GameState) (w : Option Nat)
    (hp : prev.status = .playing) (hsn : prev.snake ≠ [])
    (hc : (moveSnake prev.snake prev.nextDirection prev.mode).2 = false)
    (ht : tick draws prev = some (s1, w)) :
    s1.status = .playing ∧ s1.mode = prev.mode ∧
    s1.direction = prev.nextDirection ∧ s1.nextDirection = prev.nextDirection ∧
    s1.snake.headI = wrappedHead prev.snake prev.nextDirection prev.mode ∧
    (checkFoodCollision (wrappedHead prev.snake prev.nextDirection prev.mode)
        prev.food = true →
      s1.snake.length = prev.snake.length + 1 ∧
      s1.score = prev.score + 10 ∧
      s1.speed = calculateSpeed (prev.score + 10) ∧
      s1.highScore = max (prev.score + 10) prev.highScore ∧
      s1.food ∉ s1.snake) ∧
    (checkFoodCollision (wrappedHead prev.snake prev.nextDirection prev.mode)
        prev.food = false →
      s1.snake.length = prev.snake.length ∧ s1.score = prev.score ∧
      s1.food = prev.food ∧ s1.speed = prev.speed ∧
      s1.highScore = prev.highScore) := by
  have hnp : ¬(prev.status ≠ GameStatus.playing) := by
    rw [hp]; exact fun h => h rfl
  have hmv := moveSnake_eq_of_ok prev.snake prev.nextDirection prev.mode hc
  have hlen1 : (wrappedHead prev.snake prev.nextDirection prev.mode ::
      prev.snake.dropLast).length = prev.snake.length := by
    have h0 : 0 < prev.snake.length := List.length_pos.mpr hsn
    simp [List.length_dropLast]
    omega
  unfold tick at ht
  rw [if_neg hnp] at ht
  simp only [hmv] at ht
  rw [if_neg (fun h : false = true => nomatch h)] at ht
  simp only [List.headI_cons] at ht
  by_cases hf : checkFoodCollision
      (wrappedHead prev.snake prev.nextDirection prev.mode) prev.food = true
  · rw [if_pos hf] at ht
    cases hgen : generateRandomPosition draws
        (growSnake (wrappedHead prev.snake prev.nextDirection prev.mode ::
          prev.snake.dropLast)) with
    | none => rw [hgen] at ht; exact nomatch ht
    | some f =>
        rw [hgen] at ht
        have hpair := Option.some.inj ht
        have hs1 := (congrArg Prod.fst hpair)
        subst hs1
        have hnotin := (generateRandomPosition_some _ _ _ hgen).2
        refine ⟨hp, rfl, rfl, rfl, rfl, fun _ => ?_, fun hf2 => ?_⟩
        · refine ⟨?_, rfl, rfl, rfl, hnotin⟩
          simp only [growSnake, List.length_append, hlen1]
          simp
        · rw [hf] at hf2
          exact nomatch hf2
  · rw [if_neg hf] at ht
    rw [Bool.not_eq_true] at hf
    have hpair := Option.some.inj ht
    have hs1 := (congrArg Prod.fst hpair)
    subst hs1
    refine ⟨hp, rfl, rfl, rfl, rfl, fun hf2 => ?_, fun _ => ?_⟩
    · rw [hf] at hf2
      exact nomatch hf2
    · exact ⟨hlen1, rfl, rfl, rfl, rfl⟩

/-- C5 witness: the spec's food scenario — after one tick from
`sessionEat` (food one cell ahead), the length is 4, the score rose by 10,
and the new food lies outside the new snake. -/
theorem C5_witness :
    sessionEatAfter.snake.length = sessionEat.snake.length + 1 ∧
    sessionEatAfter.score = sessionEat.score + 10 ∧
    sessionEatAfter.food ∉ sessionEatAfter.snake ∧
    sessionEatAfter.snake.headI = ⟨11, 10⟩ := by
  have h := C5_tick_success_frame sessionEat [⟨0, 0⟩] sessionEatAfter (some 10)
    rfl (by decide) (by decide) (by decide)
  have hf := h.2.2.2.2.2.1 (by decide)
  exact ⟨hf.1, hf.2.1, hf.2.2.2.2, h.2.2.2.2.1.trans (by decide)⟩

/-- C6: in PASS_THROUGH mode a move never produces a WALL reason, and the
wrapped proposed head's coordinates always lie in `[0, N)`; a head on a
boundary cell moving outward lands on the opposite-edge coordinate; in
WALLS mode a step that takes either head coordinate outside `[0, N)`
yields a collision with reason WALL and leaves the snake unchanged. -/
theorem C6_wall_and_wrap_semantics :
    (∀ (snake : List Position) (dir : Direction),
        moveReason snake dir .passThrough ≠ some .WALL) ∧
    (∀ (snake : List Position) (dir : Direction),
        inGrid (wrappedHead snake dir .passThrough)) ∧
    (∀ snake : List Position, inGrid snake.headI →
        (snake.headI.x = GRID_SIZE - 1 →
          wrappedHead snake .RIGHT .passThrough = ⟨0, snake.headI.y⟩) ∧
        (snake.headI.x = 0 →
          wrappedHead snake .LEFT .passThrough = ⟨GRID_SIZE - 1, snake.headI.y⟩) ∧
        (snake.headI.y = GRID_SIZE - 1 →
          wrappedHead snake .DOWN .passThrough = ⟨snake.headI.x, 0⟩) ∧
        (snake.headI.y = 0 →
          wrappedHead snake .UP .passThrough = ⟨snake.headI.x, GRID_SIZE - 1⟩)) ∧
    (∀ (snake : List Position) (dir : Direction),
        ¬ inGrid (stepPos snake.headI dir) →
        moveSnake snake dir .walls = (snake, true) ∧
        moveReason snake dir .walls = some .WALL) := by
  refine ⟨?_, ?_, ?_, ?_⟩
  · intro snake dir h
    simp only [moveReason] at h
    split at h
    · exact nomatch h
    · exact nomatch h
  · intro snake dir
    unfold inGrid
    refine ⟨?_, ?_, ?_, ?_⟩ <;> simp only [wrappedHead, GRID_SIZE]
    · exact Int.emod_nonneg _ (by decide)
    · exact Int.emod_lt_of_pos _ (by decide)
    · exact Int.emod_nonneg _ (by decide)
    · exact Int.emod_lt_of_pos _ (by decide)
  · intro snake hh
    obtain ⟨hx0, hx1, hy0, hy1⟩ := hh
    simp only [GRID_SIZE] at hx0 hx1 hy0 hy1
    refine ⟨fun hx => ?_, fun hx => ?_, fun hy => ?_, fun hy => ?_⟩
    · simp only [GRID_SIZE] at hx
      simp only [wrappedHead, stepPos, GRID_SIZE, Position.mk.injEq]
      constructor <;> omega
    · simp only [GRID_SIZE] at hx
      simp only [wrappedHead, stepPos, GRID_SIZE, Position.mk.injEq]
      constructor <;> omega
    · simp only [GRID_SIZE] at hy
      simp only [wrappedHead, stepPos, GRID_SIZE, Position.mk.injEq]
      constructor <;> omega
    · simp only [GRID_SIZE] at hy
      simp only [wrappedHead, stepPos, GRID_SIZE, Position.mk.injEq]
      constructor <;> omega
  · intro snake dir hob
    unfold inGrid GRID_SIZE at hob
    have hcond : (decide ((stepPos snake.headI dir).x < 0) ||
        decide ((stepPos snake.headI dir).x ≥ GRID_SIZE) ||
        decide ((stepPos snake.headI dir).y < 0) ||
        decide ((stepPos snake.headI dir).y ≥ GRID_SIZE)) = true := by
      simp only [Bool.or_eq_true, decide_eq_true_eq, GRID_SIZE]
      omega
    constructor
    · simp only [moveSnake]
      rw [if_pos hcond]
    · simp only [moveReason]
      rw [if_pos hcond]

/-- C6 witness: wrapping at the east edge, a concrete wall hit, and the
wrapped head of a boundary cell staying on the grid. -/
theorem C6_witness :
    wrappedHead [⟨19, 10⟩] .RIGHT .passThrough = ⟨0, 10⟩ ∧
    moveSnake [⟨19, 10⟩, ⟨18, 10⟩] .RIGHT .walls = ([⟨19, 10⟩, ⟨18, 10⟩], true) ∧
    moveReason [⟨19, 10⟩, ⟨18, 10⟩] .RIGHT .walls = some .WALL ∧
    inGrid (wrappedHead [⟨0, 0⟩] .UP .passThrough) := by
  have h3 := (C6_wall_and_wrap_semantics.2.2.1 [⟨19, 10⟩] (by decide)).1 (by decide)
  have h4 := C6_wall_and_wrap_semantics.2.2.2 [⟨19, 10⟩, ⟨18, 10⟩] .RIGHT (by decide)
  have h2 := C6_wall_and_wrap_semantics.2.1 [⟨0, 0⟩] .UP
  exact ⟨h3.trans (by decide), h4.1, h4.2, h2⟩

/-- C8 (amended): the spawner is unbounded rejection sampling with no retry
bound and no deterministic fallback: `generateRandomPosition` returns a
position exactly when some draw of the random stream misses the exclusion
list (and then returns such a draw, never a member of the list); when the
snake occupies every grid cell, every finite stream of in-grid draws is
rejected — the source's do-while loop never exits, so spawning does not
terminate on a fully occupied grid. -/
theorem C8_spawner_unbounded :
    (∀ draws ex : List Position,
        generateRandomPosition draws ex = none ↔ ∀ d ∈ draws, d ∈ ex) ∧
    (∀ (draws ex : List Position) (p : Position),
        generateRandomPosition draws ex = some p → p ∈ draws ∧ p ∉ ex) ∧
    (∀ draws : List Position, (∀ d ∈ draws, inGrid d) →
        generateRandomPosition draws allCells = none) := by
  refine ⟨generateRandomPosition_none_iff, generateRandomPosition_some, ?_⟩
  intro draws hg
  rw [generateRandomPosition_none_iff]
  intro d hd
  rw [mem_allCells]
  exact hg d hd

/-- C8 counterexample: with the snake occupying all 400 grid cells, the
spawning loop rejects every draw — even a stream that enumerates every grid
cell once (exactly what a deterministic fallback scan would try) — and
never produces a position, refuting the claimed retry bound with fallback
scan. -/
theorem C8_counterexample_full_grid :
    generateRandomPosition allCells allCells = none ∧
    generateRandomPosition [⟨0, 0⟩, ⟨7, 11⟩, ⟨19, 19⟩] allCells = none := by
  constructor
  · exact (generateRandomPosition_none_iff _ _).mpr fun d hd => hd
  · exact (generateRandomPosition_none_iff _ _).mpr (by decide)

/-- C8 witness: the amended statement applied to a concrete one-draw
stream on the fully occupied grid. -/
theorem C8_witness :
    generateRandomPosition [⟨3, 4⟩] allCells = none :=
  C8_spawner_unbounded.2.2 [⟨3, 4⟩] (by decide)

theorem mem_filter_legalTurn_ne (direction d : Direction)
    (hd : d ∈ directions.filter (legalTurn direction)) :
    d ≠ getOppositeDirection direction := by
  rw [List.mem_filter] at hd
  have hlt := hd.2
  cases direction <;> cases d <;> simp_all [legalTurn, getOppositeDirection]

theorem self_ne_opposite (d : Direction) : d ≠ getOppositeDirection d := by
  cases d <;> decide

theorem turn_result_ne_reverse (direction : Direction) (k : Nat) :
    (directions.filter (legalTurn direction)).getD
      (k % (directions.filter (legalTurn direction)).length) direction ≠
      getOppositeDirection direction := by
  have hlen : (directions.filter (legalTurn direction)).length = 3 := by
    cases direction <;> rfl
  have hklt : k % (directions.filter (legalTurn direction)).length <
      (directions.filter (legalTurn direction)).length := by
    rw [hlen]
    omega
  rw [List.getD_eq_getElem _ _ hklt]
  exact mem_filter_legalTurn_ne direction _ (List.getElem_mem _)

/-- C9: for every snapshot, mode, status and random outcome,
`simulatePlayerTick` moves the head exactly one cell in the input's
direction with unconditional toroidal wrap, keeps status (and mode, id,
username, viewers) unchanged — in particular it never turns a non-game-over
status into GAME_OVER — adds exactly 10 points and one segment exactly when
the new head equals the food (and then respawns the food outside the new
snake, otherwise leaves length, score and food unchanged), and never
returns the 180° reversal of the input direction. The embedding is a pure
function, matching the source's construction of a fresh snapshot object. -/
theorem C9_simulatePlayerTick_spec (player : LivePlayer) (gridSize : Int)
    (foodDraws : List Position) (changeDir : Bool) (k : Nat) (p1 : LivePlayer)
    (hsn : player.snake ≠ [])
    (h : simulatePlayerTick player gridSize foodDraws changeDir k = some p1) :
    p1.status = player.status ∧ p1.mode = player.mode ∧ p1.id = player.id ∧
    p1.username = player.username ∧ p1.viewers = player.viewers ∧
    p1.snake.headI = simHead player gridSize ∧
    (simHead player gridSize = player.food →
      p1.score = player.score + 10 ∧
      p1.snake.length = player.snake.length + 1 ∧
      p1.food ∉ p1.snake) ∧
    (simHead player gridSize ≠ player.food →
      p1.score = player.score ∧ p1.snake.length = player.snake.length ∧
      p1.food = player.food) ∧
    p1.direction ≠ getOppositeDirection player.direction ∧
    (player.status ≠ .gameOver → p1.status ≠ .gameOver) := by
  have hdir : ∀ q : LivePlayer, q.direction =
      (if changeDir then
        (directions.filter (legalTurn player.direction)).getD
          (k % (directions.filter (legalTurn player.direction)).length)
          player.direction
      else player.direction) → q.direction ≠ getOppositeDirection player.direction := by
    intro q hq
    rw [hq]
    cases changeDir
    · rw [if_neg (fun hh : false = true => nomatch hh)]
      exact self_ne_opposite player.direction
    · rw [if_pos rfl]
      exact turn_result_ne_reverse player.direction k
  simp only [simulatePlayerTick] at h
  by_cases hf : checkFoodCollision (simHead player gridSize) player.food = true
  · rw [if_pos hf] at h
    cases hgen : generateRandomFood foodDraws (simHead player gridSize :: player.snake) with
    | none => rw [hgen] at h; exact nomatch h
    | some nf =>
        rw [hgen] at h
        have hp1 := Option.some.inj h
        subst hp1
        have hnotin := (generateRandomFood_some _ _ _ hgen).2
        refine ⟨rfl, rfl, rfl, rfl, rfl, rfl, fun _ => ⟨rfl, rfl, hnotin⟩,
          fun hne => absurd ((checkFoodCollision_iff _ _).mp hf) hne,
          hdir _ rfl, fun hs => hs⟩
  · rw [if_neg hf] at h
    rw [Bool.not_eq_true] at hf
    have hp1 := Option.some.inj h
    subst hp1
    have hdrop : (simHead player gridSize :: player.snake).dropLast =
        simHead player gridSize :: player.snake.dropLast :=
      List.dropLast_cons_of_ne_nil hsn
    refine ⟨rfl, rfl, rfl, rfl, rfl, ?_, fun heat => ?_, fun _ => ?_, hdir _ rfl,
      fun hs => hs⟩
    · simp only [hdrop, List.headI_cons]
    · exact absurd ((checkFoodCollision_iff _ _).mpr heat)
        (by rw [hf]; exact fun hh => nomatch hh)
    · refine ⟨rfl, ?_, rfl⟩
      have h0 : 0 < player.snake.length := List.length_pos.mpr hsn
      simp only [List.length_dropLast, List.length_cons]
      omega

/-- C9 witness: one simulated tick of a concrete snapshot that eats the
food: score +10, length +1, respawned food outside the snake, direction
turned to UP (not the reversal of RIGHT), status still playing. -/
theorem C9_witness :
    playerDemoAfter.score = playerDemo.score + 10 ∧
    playerDemoAfter.snake.length = playerDemo.snake.length + 1 ∧
    playerDemoAfter.food ∉ playerDemoAfter.snake ∧
    playerDemoAfter.direction ≠ getOppositeDirection playerDemo.direction ∧
    playerDemoAfter.status = playerDemo.status := by
  have h := C9_simulatePlayerTick_spec playerDemo 20 [⟨0, 0⟩] true 0 playerDemoAfter
    (by decide) (by decide)
  have he := h.2.2.2.2.2.2.1 (by decide)
  exact ⟨he.1, he.2.1, he.2.2, h.2.2.2.2.2.2.2.2.1, h.1⟩

/-- C10: `setDirection` rejects a request exactly when the status is not
PLAYING or the request equals the opposite of the committed current
direction — the pending `nextDirection` is never consulted; consequently
for the PLAYING state `sessionBlind` and the request pair RIGHT then LEFT
arriving between two ticks, the second accepted request is the 180°
reversal of the first (still-pending) one, and the following tick moves
the head onto the cell occupied by the snake's second segment `(4,5)`
without reporting any collision (status stays PLAYING). -/
theorem C10_setDirection_ignores_pending :
    (∀ (s : GameState) (d : Direction),
        setDirection s d =
          if s.status ≠ .playing ∨ d = getOppositeDirection s.direction then s
          else { s with nextDirection := d }) ∧
    sessionBlind.status = .playing ∧
    (setDirection sessionBlind .RIGHT).nextDirection = .RIGHT ∧
    (setDirection (setDirection sessionBlind .RIGHT) .LEFT).nextDirection = .LEFT ∧
    Direction.LEFT = getOppositeDirection .RIGHT ∧
    tick [] (setDirection (setDirection sessionBlind .RIGHT) .LEFT) =
      some (sessionBlindAfter, none) ∧
    sessionBlindAfter.snake.headI = sessionBlind.snake.getD 1 default ∧
    sessionBlindAfter.status = .playing := by
  refine ⟨?_, by decide, by decide, by decide, by decide, by decide, by decide,
    by decide⟩
  intro s d
  by_cases h1 : s.status = GameStatus.playing
  · by_cases h2 : d = getOppositeDirection s.direction
    · unfold setDirection
      rw [if_neg (fun hc => hc h1), if_pos h2, if_pos (Or.inr h2)]
    · unfold setDirection
      rw [if_neg (fun hc => hc h1), if_neg h2,
        if_neg (fun hor => hor.elim (fun ha => ha h1) h2)]
  · unfold setDirection
    rw [if_pos h1, if_pos (Or.inl h1)]

end SnakeArena
